import Mathlib

/-!
Verification of the security layer of the `alx-polly` polling application:
the `SecurityUtils` module (`src/lib/security.ts`), the fixed-window rate
limiter in `src/middleware.ts`, and the server actions that consume them
(`auth-actions.ts`, `poll-actions.ts`, the vote route handler).

Strings are modelled as Lean `String`s (lists of characters); the JavaScript
regular expressions used by the sanitizer and validators are embedded as
executable matchers whose language is exactly that of the source regexes,
and `String.prototype.replace` with a global regex is embedded as a
left-to-right non-overlapping delete-and-continue scan.
-/

namespace AlxPolly

/-- The character set of JavaScript `\s` and of `String.prototype.trim`
(ECMA-262 WhiteSpace plus LineTerminator). -/
def isJsWhitespace (c : Char) : Bool :=
  c = ' ' || c = '\t' || c.val = 10 || c.val = 11 || c.val = 12 || c.val = 13 ||
  c.val = 0xA0 || c.val = 0x1680 || (0x2000 ≤ c.val && c.val ≤ 0x200A) ||
  c.val = 0x2028 || c.val = 0x2029 || c.val = 0x202F || c.val = 0x205F ||
  c.val = 0x3000 || c.val = 0xFEFF

/-- The character set of JavaScript `\w`: `[A-Za-z0-9_]`. -/
def isWordChar (c : Char) : Bool :=
  ('a' ≤ c && c ≤ 'z') || ('A' ≤ c && c ≤ 'Z') || ('0' ≤ c && c ≤ '9') || c = '_'

def isUpperAscii (c : Char) : Bool := 'A' ≤ c && c ≤ 'Z'

def isLowerAscii (c : Char) : Bool := 'a' ≤ c && c ≤ 'z'

def isDigitAscii (c : Char) : Bool := '0' ≤ c && c ≤ '9'

/-- `String.prototype.trim`, on the character list. -/
def jsTrimList (l : List Char) : List Char :=
  ((l.dropWhile isJsWhitespace).reverse.dropWhile isJsWhitespace).reverse

/-- `String.prototype.trim`. -/
def jsTrim (s : String) : String := ⟨jsTrimList s.data⟩

/-- Match of a case-insensitive literal pattern at the head of `l`
(the pattern is given in lower case): returns the matched length.
The source patterns `javascript:`, `vbscript:`, `data:` and the literal
parts of the tag patterns are ASCII, so ASCII case folding
(`Char.toLower`) coincides with the regex `i`-flag canonicalisation. -/
def matchLitCI (pat l : List Char) : Option Nat :=
  if pat.length ≤ l.length ∧ (l.take pat.length).map Char.toLower = pat then
    some pat.length
  else none

/-- Match of `on\w+\s*=` (the inline-event-handler pattern, `i`-flag) at the
head of `l`.  Since `\w`, `\s` and `=` are pairwise disjoint character
classes, the greedy backtracking match is forced: `on`, then the maximal
word-character run (nonempty), then the maximal whitespace run, then `=`. -/
def matchOnHandler (l : List Char) : Option Nat :=
  match l with
  | c1 :: c2 :: rest =>
    if c1.toLower = 'o' ∧ c2.toLower = 'n' then
      let w := rest.takeWhile isWordChar
      if w.length = 0 then none
      else
        let rest2 := rest.drop w.length
        let sp := rest2.takeWhile isJsWhitespace
        match rest2.drop sp.length with
        | '=' :: _ => some (2 + w.length + sp.length + 1)
        | _ => none
    else none
  | _ => none

/-- The part of a tag pattern after `<tag\b`: `[^<]*(?:(?!<\/tag>)<[^<]*)*<\/tag>`.
`close` is the closing literal (e.g. `</script>`, lower case).  The greedy
backtracking match is forced: consume the maximal `<`-free run, then at each
`<` either the closing tag matches (ending the match) or the `<` is consumed
and the scan continues; if the string ends first there is no match. -/
def tagRestFuel (close : List Char) : Nat → List Char → Option Nat
  | 0, _ => none
  | fuel + 1, l =>
    let a := l.takeWhile (fun c => c ≠ '<')
    match l.drop a.length with
    | [] => none
    | c :: r =>
      if (matchLitCI close (c :: r)).isSome then some (a.length + close.length)
      else
        match tagRestFuel close fuel r with
        | some n => some (a.length + 1 + n)
        | none => none

def tagRest (close : List Char) (l : List Char) : Option Nat :=
  tagRestFuel close l.length l

/-- Match of `<tag\b[^<]*(?:(?!<\/tag>)<[^<]*)*<\/tag>` (`i`-flag) at the head
of `l`.  `openTag` is e.g. `<script`, `close` is `</script>` (lower case).
All four tag names end in a word character, so the `\b` after the opening
literal requires the next character to be a non-word character. -/
def matchTag (openTag close : List Char) (l : List Char) : Option Nat :=
  if (matchLitCI openTag l).isSome then
    match l.drop openTag.length with
    | [] => none
    | c :: r =>
      if isWordChar c then none
      else
        match tagRest close (c :: r) with
        | some n => some (openTag.length + n)
        | none => none
  else none

/-- `String.prototype.replace` with a global regex and empty replacement:
scan left to right; at each position, if the matcher matches (with positive
length), delete the match and continue after it, otherwise keep the
character and move one position right. -/
def replaceGFuel (matchAt : List Char → Option Nat) : Nat → List Char → List Char
  | 0, l => l
  | _, [] => []
  | fuel + 1, c :: cs =>
    match matchAt (c :: cs) with
    | some (n + 1) => replaceGFuel matchAt fuel (cs.drop n)
    | _ => c :: replaceGFuel matchAt fuel cs

def replaceG (matchAt : List Char → Option Nat) (l : List Char) : List Char :=
  replaceGFuel matchAt l.length l

/-- The `DANGEROUS_PATTERNS` array of `src/lib/security.ts`, in source order,
each regex embedded as a matcher. -/
def DANGEROUS_PATTERNS : List (List Char → Option Nat) :=
  [ matchTag "<script".data "</script>".data,
    matchTag "<iframe".data "</iframe>".data,
    matchTag "<object".data "</object>".data,
    matchTag "<embed".data "</embed>".data,
    matchLitCI "javascript:".data,
    matchOnHandler,
    matchLitCI "vbscript:".data,
    matchLitCI "data:".data ]

/-- `SecurityUtils.sanitizeInput` on a string input: trim, then apply each
dangerous-pattern global replacement in order. -/
def sanitizeInput (s : String) : String :=
  ⟨DANGEROUS_PATTERNS.foldl (fun l f => replaceG f l) (jsTrimList s.data)⟩

/-- Case-insensitive substring test (the pattern given in lower case):
some position of `s` starts a match of the literal pattern. -/
def hasSubstrCI (pat s : String) : Bool :=
  (List.range (s.data.length + 1)).any fun i =>
    (matchLitCI pat.data (s.data.drop i)).isSome

/-- A value that may or may not be a string, modelling the `typeof` guards
of the source (`nonString` stands for any non-string JavaScript value). -/
inductive JsInput where
  | str (s : String)
  | nonString
deriving DecidableEq

/-- `SecurityUtils.validateLength`: true iff the input is a string whose
trimmed length lies in `[min, max]` (the source compares with `>=`/`<=`). -/
def validateLength (value : JsInput) (min max : Int) : Bool :=
  match value with
  | .nonString => false
  | .str s =>
    let length : Int := (jsTrim s).length
    min ≤ length && length ≤ max

/-- The test of `^[^\s@]+@[^\s@]+\.[^\s@]+$` on a character list.  The match
exists iff the list splits as `local ++ '@' ++ domain` with a nonempty
`local` free of whitespace and `@`, and a `domain` free of whitespace and
`@` containing a `.` at an interior position; since neither side may
contain `@`, the split is at the unique `@`. -/
def emailShape (l : List Char) : Bool :=
  let localPart := l.takeWhile (fun c => c ≠ '@')
  match l.drop localPart.length with
  | '@' :: domain =>
    !localPart.isEmpty && localPart.all (fun c => !isJsWhitespace c) &&
    !domain.isEmpty && domain.all (fun c => !isJsWhitespace c && c ≠ '@') &&
    ((domain.drop 1).dropLast.contains '.')
  | _ => false

/-- `SecurityUtils.isValidEmail`: the email regex tested on the trimmed
input. -/
def isValidEmail (email : String) : Bool :=
  emailShape (jsTrimList email.data)

-- `SECURITY_CONFIG.PASSWORD_REQUIREMENTS`
def PASSWORD_MIN_LENGTH : Nat := 8
def REQUIRE_UPPERCASE : Bool := true
def REQUIRE_LOWERCASE : Bool := true
def REQUIRE_NUMBER : Bool := true

/-- `SecurityUtils.isStrongPassword`.  `/(?=.*[A-Z])/.test p` holds iff `p`
has an ASCII uppercase character (the lookahead can start at that
character with `.*` empty); likewise for `[a-z]` and `\d`. -/
def isStrongPassword (password : String) : Bool :=
  if password.length < PASSWORD_MIN_LENGTH then false
  else if REQUIRE_UPPERCASE && !password.data.any isUpperAscii then false
  else if REQUIRE_LOWERCASE && !password.data.any isLowerAscii then false
  else if REQUIRE_NUMBER && !password.data.any isDigitAscii then false
  else true

/-- `SecurityUtils.isValidOptionIndex`.  The index is an `Int` because the
source first requires `typeof index === 'number' && Number.isInteger(index)`;
integer inputs reach the range check, which is embedded here. -/
def isValidOptionIndex (index maxOptions : Int) : Bool :=
  0 ≤ index && index < maxOptions

-- `SECURITY_CONFIG.CSP`, in insertion order.
def CSP_CONFIG : List (String × List String) :=
  [ ("DEFAULT_SRC", ["'self'"]),
    ("SCRIPT_SRC", ["'self'", "'unsafe-inline'", "'unsafe-eval'"]),
    ("STYLE_SRC", ["'self'", "'unsafe-inline'"]),
    ("IMG_SRC", ["'self'", "data:", "https:"]),
    ("FONT_SRC", ["'self'"]),
    ("CONNECT_SRC", ["'self'", "https://*.supabase.co"]),
    ("FRAME_ANCESTORS", ["'none'"]) ]

/-- `directive.replace(/([A-Z])/g, '-$1').toLowerCase()`: a `-` is inserted
before every uppercase letter, then the whole string is lowercased. -/
def kebabTransform (s : String) : String :=
  ⟨((s.data.map (fun c => if isUpperAscii c then ['-', c] else [c])).flatten).map
    Char.toLower⟩

/-- `SecurityUtils.generateCSP`: `Object.entries(CSP)` in insertion order,
each entry rendered as `kebab(key) ++ " " ++ sources.join(" ")`, all joined
with `"; "`. -/
def generateCSP : String :=
  String.intercalate "; "
    (CSP_CONFIG.map (fun p => kebabTransform p.1 ++ " " ++ String.intercalate " " p.2))

-- `SECURITY_CONFIG.RATE_LIMIT`
def GENERAL_WINDOW_MS : Nat := 15 * 60 * 1000
def GENERAL_MAX_REQUESTS : Nat := 100
def AUTH_WINDOW_MS : Nat := 5 * 60 * 1000
def AUTH_MAX_ATTEMPTS : Nat := 5

/-- An entry of `rateLimitMap`. -/
structure RLRecord where
  count : Nat
  resetTime : Nat
deriving DecidableEq

/-- The rate-limit map, keyed (as in the source) by the client ip alone. -/
def RLMap : Type := String → Option RLRecord

/-- Pointwise map update (`rateLimitMap.set`). -/
def mapSet (m : RLMap) (k : String) (v : Option RLRecord) : RLMap :=
  fun k' => if k' = k then v else m k'

/-- `isRateLimited` of `src/middleware.ts`, generalised over the selected
policy pair `(window, maxRequests)`; returns the decision and the updated
map.  `record.count++` mutates the stored record, embedded as a map
update. -/
def isRateLimited (window maxRequests : Nat) (ip : String) (now : Nat)
    (m : RLMap) : Bool × RLMap :=
  match m ip with
  | none => (false, mapSet m ip (some ⟨1, now + window⟩))
  | some record =>
    if now > record.resetTime then
      (false, mapSet m ip (some ⟨1, now + window⟩))
    else if record.count ≥ maxRequests then
      (true, m)
    else
      (false, mapSet m ip (some ⟨record.count + 1, record.resetTime⟩))

/-- `isRateLimited(ip, isAuth)` with the source's policy selection. -/
def isRateLimitedCode (ip : String) (isAuth : Bool) (now : Nat) (m : RLMap) :
    Bool × RLMap :=
  isRateLimited (if isAuth then AUTH_WINDOW_MS else GENERAL_WINDOW_MS)
    (if isAuth then AUTH_MAX_ATTEMPTS else GENERAL_MAX_REQUESTS) ip now m

/-- Outcome of the rate-limiting part of `middleware`. -/
inductive MWResult where
  | limitedAuth
  | limitedGeneral
  | proceed
deriving DecidableEq

/-- The rate-limiting logic of `middleware`: on an auth route the auth-policy
check runs first (short-circuiting on rejection), then the general-policy
check runs for all routes. -/
def middlewareRateLimit (ip : String) (isAuthRoute : Bool) (now : Nat)
    (m : RLMap) : MWResult × RLMap :=
  if isAuthRoute then
    let r1 := isRateLimitedCode ip true now m
    if r1.1 then (.limitedAuth, r1.2)
    else
      let r2 := isRateLimitedCode ip false now r1.2
      if r2.1 then (.limitedGeneral, r2.2) else (.proceed, r2.2)
  else
    let r2 := isRateLimitedCode ip false now m
    if r2.1 then (.limitedGeneral, r2.2) else (.proceed, r2.2)

/-- Run `middleware`'s rate limiting over a request sequence; each request is
an `(isAuthRoute, now)` pair for the same client ip. -/
def mwRun (ip : String) (m : RLMap) : List (Bool × Nat) → List MWResult × RLMap
  | [] => ([], m)
  | r :: rs =>
    let s := middlewareRateLimit ip r.1 r.2 m
    let rest := mwRun ip s.2 rs
    (s.1 :: rest.1, rest.2)

/-- Run `isRateLimited` with a fixed policy over a sequence of request
times for one client ip. -/
def rlRun (window maxRequests : Nat) (ip : String) (m : RLMap) :
    List Nat → List Bool × RLMap
  | [] => ([], m)
  | t :: ts =>
    let s := isRateLimited window maxRequests ip t m
    let rest := rlRun window maxRequests ip s.2 ts
    (s.1 :: rest.1, rest.2)

-- `SECURITY_CONFIG.INPUT_LIMITS`
def NAME_MIN : Int := 2
def NAME_MAX : Int := 100
def EMAIL_MIN : Int := 3
def EMAIL_MAX : Int := 254
def POLL_ID_MIN : Int := 1
def POLL_ID_MAX : Int := 100

/-- Result of the `login` server action: either an early validation error or
the payload handed to `supabase.auth.signInWithPassword`. -/
inductive AuthOutcome where
  | err (msg : String)
  | signIn (email password : String)
deriving DecidableEq

/-- The `login` server action of `auth-actions.ts`, up to the provider call
(the provider is an external collaborator; the embedding returns the exact
payload handed to it).  String inputs are modelled; `!data.email` is the
empty-string falsiness test. -/
def login (email password : String) : AuthOutcome :=
  if email = "" ∨ password = "" then
    .err "Email and password are required."
  else
    let sanitizedEmail := sanitizeInput email
    let sanitizedPassword := password
    if !isValidEmail sanitizedEmail then
      .err "Please enter a valid email address."
    else if !validateLength (.str sanitizedEmail) EMAIL_MIN EMAIL_MAX then
      .err "Email must be between 3 and 254 characters."
    else if sanitizedPassword.length < 1 then
      .err "Password is required."
    else
      .signIn sanitizedEmail sanitizedPassword

/-- Result of the `register` server action: either an early validation error
or the payload handed to `supabase.auth.signUp`. -/
inductive RegisterOutcome where
  | err (msg : String)
  | signUp (email password name : String)
deriving DecidableEq

/-- The `register` server action of `auth-actions.ts`, up to the provider
call. -/
def register (name email password : String) : RegisterOutcome :=
  if name = "" ∨ email = "" ∨ password = "" then
    .err "Name, email, and password are required."
  else
    let sanitizedName := sanitizeInput name
    let sanitizedEmail := sanitizeInput email
    let sanitizedPassword := password
    if !validateLength (.str sanitizedName) NAME_MIN NAME_MAX then
      .err "Name must be between 2 and 100 characters."
    else if !isValidEmail sanitizedEmail then
      .err "Please enter a valid email address."
    else if !validateLength (.str sanitizedEmail) EMAIL_MIN EMAIL_MAX then
      .err "Email must be between 3 and 254 characters."
    else if !isStrongPassword sanitizedPassword then
      .err "Password must be at least 8 characters long and contain at least one uppercase letter, one lowercase letter, and one number."
    else
      .signUp sanitizedEmail sanitizedPassword sanitizedName

/-- Result of the input-validation stage shared by `submitVote` and the POST
vote route handler. -/
inductive VoteCheck where
  | invalidPoll
  | invalidOption
  | proceed (pollId : String) (optionIndex : Int)
deriving DecidableEq

/-- The validation stage of the `submitVote` server action
(`poll-actions.ts`): poll-id falsiness/length check, then
`isValidOptionIndex(optionIndex, 100)` with the fixed constant `100`; the
target poll is never consulted. -/
def submitVoteCheck (pollId : String) (optionIndex : Int) : VoteCheck :=
  if pollId = "" ∨ !validateLength (.str pollId) POLL_ID_MIN POLL_ID_MAX then
    .invalidPoll
  else if !isValidOptionIndex optionIndex 100 then
    .invalidOption
  else
    .proceed pollId optionIndex

/-- The validation stage of the POST vote route handler
(`app/api/polls/vote/route.ts`); textually identical to `submitVoteCheck`'s
source. -/
def postVoteCheck (pollId : String) (optionIndex : Int) : VoteCheck :=
  if pollId = "" ∨ !validateLength (.str pollId) POLL_ID_MIN POLL_ID_MAX then
    .invalidPoll
  else if !isValidOptionIndex optionIndex 100 then
    .invalidOption
  else
    .proceed pollId optionIndex

/-! Helper lemmas about the sanitizer's replacement engine. -/

theorem replaceGFuel_sublist (f : List Char → Option Nat) :
    ∀ (fuel : Nat) (l : List Char), (replaceGFuel f fuel l).Sublist l := by
  intro fuel
  induction fuel with
  | zero => intro l; cases l <;> simp [replaceGFuel]
  | succ fuel ih =>
    intro l
    cases l with
    | nil => simp [replaceGFuel]
    | cons c cs =>
      rw [replaceGFuel]
      cases h : f (c :: cs) with
      | none => exact (ih cs).cons₂ c
      | some n =>
        cases n with
        | zero => exact (ih cs).cons₂ c
        | succ m =>
          exact ((ih (cs.drop m)).trans (List.drop_sublist m cs)).trans
            (List.sublist_cons_self c cs)

theorem replaceG_sublist (f : List Char → Option Nat) (l : List Char) :
    (replaceG f l).Sublist l :=
  replaceGFuel_sublist f l.length l

theorem jsTrimList_sublist (l : List Char) : (jsTrimList l).Sublist l := by
  unfold jsTrimList
  have h2 : ((l.dropWhile isJsWhitespace).reverse.dropWhile isJsWhitespace).Sublist
      (l.dropWhile isJsWhitespace).reverse := List.dropWhile_sublist _
  have h3 := h2.reverse
  rw [List.reverse_reverse] at h3
  exact h3.trans (List.dropWhile_sublist _)

theorem foldl_replaceG_sublist :
    ∀ (fs : List (List Char → Option Nat)) (l : List Char),
      (fs.foldl (fun l f => replaceG f l) l).Sublist l
  | [], l => List.Sublist.refl l
  | f :: fs, l => by
    simp only [List.foldl_cons]
    exact (foldl_replaceG_sublist fs (replaceG f l)).trans (replaceG_sublist f l)

theorem sanitizeInput_data_sublist (s : String) :
    (sanitizeInput s).data.Sublist (jsTrim s).data := by
  simp only [sanitizeInput, jsTrim]
  exact foldl_replaceG_sublist _ _

theorem matchLitCI_some {pat l : List Char} {n : Nat}
    (h : matchLitCI pat l = some n) : n = pat.length := by
  unfold matchLitCI at h
  split at h
  · exact (Option.some.inj h).symm
  · exact absurd h (by simp)

theorem matchLitCI_nil {pat : List Char} (hp : pat ≠ []) :
    matchLitCI pat [] = none := by
  unfold matchLitCI
  rw [if_neg]
  intro hc
  exact hp (List.length_eq_zero.mp (Nat.le_zero.mp hc.1))

theorem replaceGFuel_lit_shrink (pat : List Char) (hp : pat ≠ []) :
    ∀ (fuel : Nat) (l : List Char), l.length ≤ fuel →
      (∃ i, (matchLitCI pat (l.drop i)).isSome) →
      (replaceGFuel (matchLitCI pat) fuel l).length < l.length := by
  intro fuel
  induction fuel with
  | zero =>
    intro l hl hex
    obtain ⟨i, hi⟩ := hex
    rw [List.length_eq_zero.mp (Nat.le_zero.mp hl)] at hi
    rw [List.drop_nil, matchLitCI_nil hp] at hi
    exact absurd hi (by simp)
  | succ fuel ih =>
    intro l hl hex
    obtain ⟨i, hi⟩ := hex
    cases l with
    | nil =>
      rw [List.drop_nil, matchLitCI_nil hp] at hi
      exact absurd hi (by simp)
    | cons c cs =>
      rw [replaceGFuel]
      cases h : matchLitCI pat (c :: cs) with
      | some n =>
        cases n with
        | zero =>
          exact absurd (List.length_eq_zero.mp (matchLitCI_some h).symm) hp
        | succ m =>
          have hsub := (replaceGFuel_sublist (matchLitCI pat) fuel (cs.drop m)).length_le
          have hdrop := (List.drop_sublist m cs).length_le
          simp only [List.length_cons]
          omega
      | none =>
        have hcs : ∃ j, (matchLitCI pat (cs.drop j)).isSome := by
          cases i with
          | zero =>
            rw [List.drop_zero, h] at hi
            exact absurd hi (by simp)
          | succ j =>
            rw [List.drop_succ_cons] at hi
            exact ⟨j, hi⟩
        have := ih cs (by simpa using Nat.lt_succ_iff.mp (Nat.lt_of_lt_of_le (by simp) hl)) hcs
        simp only [List.length_cons]
        omega

theorem foldl_replaceG_shrink (pat : List Char) (hp : pat ≠ [])
    (pre post : List (List Char → Option Nat)) (t : List Char)
    (hex : ∃ i, (matchLitCI pat (t.drop i)).isSome = true) :
    ((pre ++ matchLitCI pat :: post).foldl (fun l f => replaceG f l) t).length <
      t.length := by
  rw [List.foldl_append, List.foldl_cons]
  have hm : (pre.foldl (fun l f => replaceG f l) t).Sublist t :=
    foldl_replaceG_sublist pre t
  rcases eq_or_lt_of_le hm.length_le with heq | hlt
  · have hmeq : pre.foldl (fun l f => replaceG f l) t = t := hm.eq_of_length heq
    rw [hmeq]
    have h5 : (replaceG (matchLitCI pat) t).length < t.length :=
      replaceGFuel_lit_shrink pat hp t.length t le_rfl hex
    have h6 := (foldl_replaceG_sublist post (replaceG (matchLitCI pat) t)).length_le
    omega
  · have h5 := (replaceG_sublist (matchLitCI pat)
      (pre.foldl (fun l f => replaceG f l) t)).length_le
    have h6 := (foldl_replaceG_sublist post
      (replaceG (matchLitCI pat) (pre.foldl (fun l f => replaceG f l) t))).length_le
    omega

/-! Claim theorems. -/

set_option maxRecDepth 16000 in
/-- **C1.** `generateCSP()` on the fixed default configuration.  The source
key-transform `directive.replace(/([A-Z])/g, '-$1').toLowerCase()` inserts a
hyphen before *every* uppercase letter of the SCREAMING_SNAKE configuration
keys, so the first clause is `-d-e-f-a-u-l-t_-s-r-c 'self'`, not
`default-src 'self'`: the output neither begins with `default-src 'self';`
nor ends with `frame-ancestors 'none'`, contradicting the claim (and the
function's own documented purpose of generating a CSP header value). -/
theorem generateCSP_actual_output :
    generateCSP =
      "-d-e-f-a-u-l-t_-s-r-c 'self'; -s-c-r-i-p-t_-s-r-c 'self' 'unsafe-inline' 'unsafe-eval'; -s-t-y-l-e_-s-r-c 'self' 'unsafe-inline'; -i-m-g_-s-r-c 'self' data: https:; -f-o-n-t_-s-r-c 'self'; -c-o-n-n-e-c-t_-s-r-c 'self' https://*.supabase.co; -f-r-a-m-e_-a-n-c-e-s-t-o-r-s 'none'" ∧
    generateCSP.data.take 19 ≠ "default-src 'self';".data ∧
    generateCSP.data.drop (generateCSP.data.length - 22) ≠
      "frame-ancestors 'none'".data := by
  refine ⟨by decide, by decide, by decide⟩

/-- **C3 counterexample.** `sanitizeInput` is not idempotent: deleting the
(unique leftmost) match of `javascript:` from `jajavascript:vascript:`
joins the surviving fragments into a fresh `javascript:`, which a second
application then removes. -/
theorem sanitizeInput_not_idempotent :
    sanitizeInput (sanitizeInput "jajavascript:vascript:") ≠
      sanitizeInput "jajavascript:vascript:" := by decide

/-- **C3 (amended).** A second application of `sanitizeInput` never adds or
reorders content: `sanitizeInput (sanitizeInput s)` is a subsequence of
`sanitizeInput s` (equality — the claimed idempotence — fails in general). -/
theorem sanitizeInput_second_application_sublist (s : String) :
    (sanitizeInput (sanitizeInput s)).data.Sublist (sanitizeInput s).data := by
  have h1 := sanitizeInput_data_sublist (sanitizeInput s)
  simp only [jsTrim] at h1
  exact h1.trans (jsTrimList_sublist (sanitizeInput s).data)

/-- **C4 counterexample.** An input containing a case-insensitive
`javascript:` substring whose sanitized output still contains
`javascript:`: deletion of the matched occurrences concatenates the
surviving fragments into a new occurrence. -/
theorem sanitizeInput_output_still_dangerous :
    hasSubstrCI "javascript:" "jajavascript:vascript:" = true ∧
    hasSubstrCI "javascript:" (sanitizeInput "jajavascript:vascript:") = true := by
  exact ⟨by decide, by decide⟩

/-- **C4 (amended).** `sanitizeInput` only deletes characters — its output is
a subsequence of the trimmed input — and whenever the trimmed input contains
a case-insensitive `javascript:` substring at least one character is
deleted; but the output is not guaranteed to be free of the dangerous
substrings (see the counterexample). -/
theorem sanitizeInput_partial_removal (s : String) :
    (sanitizeInput s).data.Sublist (jsTrim s).data ∧
    (hasSubstrCI "javascript:" (jsTrim s) = true →
      (sanitizeInput s).data.length < (jsTrim s).data.length) := by
  refine ⟨sanitizeInput_data_sublist s, fun h => ?_⟩
  simp only [hasSubstrCI, List.any_eq_true, List.mem_range] at h
  obtain ⟨i, _, hi⟩ := h
  simp only [jsTrim] at hi ⊢
  simp only [sanitizeInput]
  rw [show DANGEROUS_PATTERNS =
      [matchTag "<script".data "</script>".data,
       matchTag "<iframe".data "</iframe>".data,
       matchTag "<object".data "</object>".data,
       matchTag "<embed".data "</embed>".data] ++
      matchLitCI "javascript:".data ::
      [matchOnHandler, matchLitCI "vbscript:".data, matchLitCI "data:".data]
    from rfl]
  exact foldl_replaceG_shrink _ (by decide) _ _ _ ⟨i, hi⟩

/-- **C4 witness.** A concrete instance of the amended statement: the input
`ab javascript: cd` contains `javascript:` after trimming, and sanitizing
it deletes characters. -/
theorem sanitizeInput_partial_removal_witness :
    (sanitizeInput "ab javascript: cd").data.length <
      (jsTrim "ab javascript: cd").data.length :=
  (sanitizeInput_partial_removal "ab javascript: cd").2 (by decide)

/-- **C7.** `validateLength(s, min, max)` is true iff the trimmed length of
the string lies in `[min, max]`; every non-string input yields `false`
(and the embedding is a total function: no fault is possible). -/
theorem validateLength_characterization (s : String) (min max : Int) :
    (validateLength (.str s) min max = true ↔
      min ≤ ((jsTrim s).length : Int) ∧ ((jsTrim s).length : Int) ≤ max) ∧
    validateLength .nonString min max = false := by
  constructor
  · simp [validateLength]
  · rfl

theorem rlRun_steady (W M : Nat) (ip : String) (R : Nat) :
    ∀ (ts : List Nat) (m : RLMap) (i : Nat), m ip = some ⟨i, R⟩ →
      i + ts.length ≤ M → (∀ t ∈ ts, t ≤ R) →
      (rlRun W M ip m ts).1 = List.replicate ts.length false ∧
      (rlRun W M ip m ts).2 ip = some ⟨i + ts.length, R⟩ ∧
      ∀ k, k ≠ ip → (rlRun W M ip m ts).2 k = m k := by
  intro ts
  induction ts with
  | nil =>
    intro m i h1 _ _
    exact ⟨rfl, by simpa [rlRun] using h1, fun k _ => rfl⟩
  | cons t ts ih =>
    intro m i h1 h2 h3
    have hnow : ¬ t > R := not_lt.mpr (h3 t (List.mem_cons_self t ts))
    have hcnt : ¬ i ≥ M := by
      simp only [List.length_cons] at h2
      omega
    have hstep : isRateLimited W M ip t m =
        (false, mapSet m ip (some ⟨i + 1, R⟩)) := by
      unfold isRateLimited
      rw [h1]
      simp [hnow, hcnt]
    have hmem : (mapSet m ip (some ⟨i + 1, R⟩)) ip = some ⟨i + 1, R⟩ := by
      simp [mapSet]
    have hlen : (i + 1) + ts.length ≤ M := by
      simp only [List.length_cons] at h2
      omega
    have hts : ∀ u ∈ ts, u ≤ R := fun u hu => h3 u (List.mem_cons_of_mem t hu)
    obtain ⟨ha, hb, hc⟩ := ih (mapSet m ip (some ⟨i + 1, R⟩)) (i + 1) hmem hlen hts
    refine ⟨?_, ?_, ?_⟩
    · simp only [rlRun, hstep, ha, List.length_cons, List.replicate_succ]
    · simp only [rlRun, hstep, List.length_cons]
      rw [hb]
      have : i + 1 + ts.length = i + (ts.length + 1) := by omega
      rw [this]
    · intro k hk
      simp only [rlRun, hstep]
      rw [hc k hk]
      simp [mapSet, hk]

/-- **C5.** The fixed-window behavior of `isRateLimited` for one policy pair
`(W, M)` and a fresh key: the first `M` calls whose times stay within the
window opened by the first call all return not-limited and leave the record
at `count = M`; any further call within the window returns limited; a call
strictly after the stored `resetTime` returns not-limited and overwrites the
record with `count = 1` and a new `resetTime`. -/
theorem rateLimiter_fixed_window (W M : Nat) (ip : String) (m0 : RLMap)
    (t0 : Nat) (ts : List Nat) (hfresh : m0 ip = none)
    (hlen : ts.length + 1 = M) (hin : ∀ t ∈ ts, t ≤ t0 + W) :
    (rlRun W M ip m0 (t0 :: ts)).1 = List.replicate M false ∧
    (rlRun W M ip m0 (t0 :: ts)).2 ip = some ⟨M, t0 + W⟩ ∧
    (∀ t1, t1 ≤ t0 + W →
      (isRateLimited W M ip t1 (rlRun W M ip m0 (t0 :: ts)).2).1 = true) ∧
    (∀ t2, t0 + W < t2 →
      (isRateLimited W M ip t2 (rlRun W M ip m0 (t0 :: ts)).2).1 = false ∧
      (isRateLimited W M ip t2 (rlRun W M ip m0 (t0 :: ts)).2).2 ip =
        some ⟨1, t2 + W⟩) := by
  have hstep : isRateLimited W M ip t0 m0 =
      (false, mapSet m0 ip (some ⟨1, t0 + W⟩)) := by
    unfold isRateLimited
    rw [hfresh]
  have hm1 : (mapSet m0 ip (some ⟨1, t0 + W⟩)) ip = some ⟨1, t0 + W⟩ := by
    simp [mapSet]
  obtain ⟨ha, hb, _⟩ := rlRun_steady W M ip (t0 + W) ts
    (mapSet m0 ip (some ⟨1, t0 + W⟩)) 1 hm1 (by omega) hin
  have hfin : (rlRun W M ip m0 (t0 :: ts)).2 ip = some ⟨M, t0 + W⟩ := by
    simp only [rlRun, hstep]
    rw [hb]
    have : 1 + ts.length = M := by omega
    rw [this]
  refine ⟨?_, hfin, ?_, ?_⟩
  · simp only [rlRun, hstep, ha]
    rw [← hlen, List.replicate_succ]
  · intro t1 h1
    unfold isRateLimited
    rw [hfin]
    simp [not_lt.mpr h1]
  · intro t2 h2
    have hres : isRateLimited W M ip t2 (rlRun W M ip m0 (t0 :: ts)).2 =
        (false, mapSet (rlRun W M ip m0 (t0 :: ts)).2 ip (some ⟨1, t2 + W⟩)) := by
      unfold isRateLimited
      rw [hfin]
      simp [h2]
    rw [hres]
    exact ⟨rfl, by simp [mapSet]⟩

/-- **C5 witness.** Policy `(W, M) = (10, 2)`, fresh key `k`: calls at times
`0` and `3` are not limited; a third call at time `5` (within the window) is
limited; a call at time `20 > resetTime = 10` resets the record to
`count = 1, resetTime = 30`. -/
theorem rateLimiter_fixed_window_witness :
    (rlRun 10 2 "k" (fun _ => none) [0, 3]).1 = List.replicate 2 false ∧
    (isRateLimited 10 2 "k" 5 (rlRun 10 2 "k" (fun _ => none) [0, 3]).2).1 =
      true ∧
    (isRateLimited 10 2 "k" 20 (rlRun 10 2 "k" (fun _ => none) [0, 3]).2).2 "k" =
      some ⟨1, 30⟩ := by
  obtain ⟨h1, _, h3, h4⟩ :=
    rateLimiter_fixed_window 10 2 "k" (fun _ => none) 0 [3] rfl rfl (by decide)
  exact ⟨h1, h3 5 (by decide), (h4 20 (by decide)).2⟩

/-- **C6.** When `isRateLimited` rejects (a record exists, the window has not
expired, and its count has reached the policy maximum) the whole map is left
unchanged: the key's record keeps its count and resetTime and no other
key's record is touched. -/
theorem rateLimiter_reject_frame (W M now : Nat) (ip : String) (m : RLMap)
    (r : RLRecord) (hr : m ip = some r) (hwin : ¬ now > r.resetTime)
    (hcount : r.count ≥ M) :
    (isRateLimited W M ip now m).1 = true ∧
    ∀ k, (isRateLimited W M ip now m).2 k = m k := by
  unfold isRateLimited
  rw [hr]
  simp [hwin, hcount]

/-- **C6 witness.** A concrete rejection (count 2 = max 2, window open)
leaves both the rejected key's record and another key's absence intact. -/
theorem rateLimiter_reject_frame_witness :
    (isRateLimited 7 2 "k" 4 (mapSet (fun _ => none) "k" (some ⟨2, 10⟩))).1 =
      true ∧
    (isRateLimited 7 2 "k" 4 (mapSet (fun _ => none) "k" (some ⟨2, 10⟩))).2 "k" =
      some ⟨2, 10⟩ ∧
    (isRateLimited 7 2 "k" 4 (mapSet (fun _ => none) "k" (some ⟨2, 10⟩))).2 "k2" =
      none := by
  obtain ⟨h1, h2⟩ := rateLimiter_reject_frame 7 2 4 "k"
    (mapSet (fun _ => none) "k" (some ⟨2, 10⟩)) ⟨2, 10⟩ (by decide) (by decide)
    (by decide)
  exact ⟨h1, (h2 "k").trans (by decide), (h2 "k2").trans (by decide)⟩

/-- **C2 counterexample.** The two policies are not independent counters:
after five general-policy (non-auth) requests at time 0 from a fresh client,
a sixth request on an auth route is rejected *under the auth policy* (the
shared record's count 5 has reached the auth maximum), while the same
auth-route request against a fresh map proceeds — so general-policy counts
do influence the auth-policy decision.  Moreover a single auth-route request
on a fresh map leaves one merged record `⟨2, 300000⟩` (incremented once by
the auth check and once by the general check, with the auth window), not two
independent windows. -/
theorem middleware_policies_share_state :
    (middlewareRateLimit "1.1.1.1" true 0
      (mwRun "1.1.1.1" (fun _ => none)
        [(false, 0), (false, 0), (false, 0), (false, 0), (false, 0)]).2).1 =
      .limitedAuth ∧
    (middlewareRateLimit "1.1.1.1" true 0 (fun _ => none)).1 = .proceed ∧
    (middlewareRateLimit "1.1.1.1" true 0 (fun _ => none)).2 "1.1.1.1" =
      some ⟨2, 300000⟩ := by
  exact ⟨by decide, by decide, by decide⟩

/-- **C2 (amended).** The middleware keeps a *single* record per client key,
shared by both policies: whenever the shared record for a key has
`count ≥ AUTH.MAX_ATTEMPTS` within its window — however that count was
accumulated, e.g. entirely by general-policy traffic — an auth-route request
for that key is rejected under the auth policy with the map unchanged. -/
theorem middleware_shared_counter (ip : String) (now : Nat) (m : RLMap)
    (r : RLRecord) (hr : m ip = some r) (hwin : ¬ now > r.resetTime)
    (hcount : r.count ≥ AUTH_MAX_ATTEMPTS) :
    middlewareRateLimit ip true now m = (.limitedAuth, m) := by
  have hlim : isRateLimitedCode ip true now m = (true, m) := by
    unfold isRateLimitedCode isRateLimited
    rw [hr]
    simp [hwin, hcount]
  unfold middlewareRateLimit
  simp [hlim]

/-- **C2 (amended) witness.** The shared record built by five general-policy
requests triggers the auth-policy rejection. -/
theorem middleware_shared_counter_witness :
    middlewareRateLimit "1.1.1.1" true 0
      (mwRun "1.1.1.1" (fun _ => none)
        [(false, 0), (false, 0), (false, 0), (false, 0), (false, 0)]).2 =
    (.limitedAuth,
      (mwRun "1.1.1.1" (fun _ => none)
        [(false, 0), (false, 0), (false, 0), (false, 0), (false, 0)]).2) :=
  middleware_shared_counter "1.1.1.1" 0 _ ⟨5, 900000⟩ (by decide) (by decide)
    (by decide)

theorem isStrongPassword_true_any (p : String)
    (hp : isStrongPassword p = true) :
    p.data.any isUpperAscii = true ∧ p.data.any isLowerAscii = true ∧
    p.data.any isDigitAscii = true := by
  unfold isStrongPassword at hp
  split_ifs at hp with h1 h2 h3 h4
  simp only [REQUIRE_UPPERCASE, REQUIRE_LOWERCASE, REQUIRE_NUMBER,
    Bool.true_and, Bool.not_eq_true', Bool.not_eq_false] at h2 h3 h4
  exact ⟨h2, h3, h4⟩

/-- **C8.** `isStrongPassword` returns `false` for every password lacking an
uppercase letter, or lacking a lowercase letter, or lacking a digit (even
with length ≥ 8), and returns `true` for `"Abcdefg1"`. -/
theorem isStrongPassword_requirements (p : String) :
    ((p.data.all (fun c => !isUpperAscii c) = true ∨
      p.data.all (fun c => !isLowerAscii c) = true ∨
      p.data.all (fun c => !isDigitAscii c) = true) →
      isStrongPassword p = false) ∧
    isStrongPassword "Abcdefg1" = true := by
  constructor
  · intro h
    by_contra hne
    have hp : isStrongPassword p = true := by
      cases hb : isStrongPassword p
      · exact absurd hb hne
      · rfl
    obtain ⟨hU, hL, hD⟩ := isStrongPassword_true_any p hp
    rcases h with h | h | h
    · obtain ⟨c, hc, hcb⟩ := List.any_eq_true.mp hU
      have := List.all_eq_true.mp h c hc
      simp [hcb] at this
    · obtain ⟨c, hc, hcb⟩ := List.any_eq_true.mp hL
      have := List.all_eq_true.mp h c hc
      simp [hcb] at this
    · obtain ⟨c, hc, hcb⟩ := List.any_eq_true.mp hD
      have := List.all_eq_true.mp h c hc
      simp [hcb] at this
  · decide

/-- **C8 witness.** A password of length 8 with no uppercase letter is
rejected; `"Abcdefg1"` is accepted. -/
theorem isStrongPassword_requirements_witness :
    isStrongPassword "abcdefg1" = false ∧ isStrongPassword "Abcdefg1" = true :=
  ⟨(isStrongPassword_requirements "abcdefg1").1 (Or.inl (by decide)),
    (isStrongPassword_requirements "Abcdefg1").2⟩

/-- **C9.** Whenever `login` reaches the provider call
(`supabase.auth.signInWithPassword`) or `register` reaches
`supabase.auth.signUp`, the password handed over is exactly the input
password — it is never passed through `sanitizeInput` or otherwise changed —
while the email (and, for `register`, the name) is the sanitized input. -/
theorem password_passthrough :
    (∀ email password e p, login email password = .signIn e p →
      p = password ∧ e = sanitizeInput email) ∧
    (∀ name email password e p n,
      register name email password = .signUp e p n →
      p = password ∧ e = sanitizeInput email ∧ n = sanitizeInput name) := by
  constructor
  · intro email password e p h
    simp only [login] at h
    split_ifs at h
    injection h with he hp
    exact ⟨hp.symm, he.symm⟩
  · intro name email password e p n h
    simp only [register] at h
    split_ifs at h
    injection h with he hp hn
    exact ⟨hp.symm, he.symm, hn.symm⟩

/-- **C9 witness.** A concrete successful login and registration, with the
password delivered to the provider byte-for-byte. -/
theorem password_passthrough_witness :
    login "a@b.cd" "pw" = .signIn "a@b.cd" "pw" ∧
    register "Jo" "a@b.cd" "Abcdefg1" = .signUp "a@b.cd" "Abcdefg1" "Jo" ∧
    "pw" = "pw" ∧ "Abcdefg1" = "Abcdefg1" := by
  refine ⟨by decide, by decide, ?_, ?_⟩
  · exact (password_passthrough.1 "a@b.cd" "pw" "a@b.cd" "pw" (by decide)).1
  · exact (password_passthrough.2 "Jo" "a@b.cd" "Abcdefg1" "a@b.cd" "Abcdefg1"
      "Jo" (by decide)).1

/-- **C10.** Both vote entry points validate the option index against the
fixed constant `100`, never against the target poll's own option count
(neither embedded check takes the poll as an input at all): with a valid
poll id, any integer `0 ≤ i < 100` passes the index check of both
`submitVote` and the POST route handler, and any `i ≥ 100` (or `i < 0`) is
rejected. -/
theorem optionIndex_fixed_bound (pollId : String) (i : Int)
    (hid : pollId ≠ "")
    (hlen : validateLength (.str pollId) POLL_ID_MIN POLL_ID_MAX = true) :
    (submitVoteCheck pollId i = .proceed pollId i ↔ 0 ≤ i ∧ i < 100) ∧
    (postVoteCheck pollId i = .proceed pollId i ↔ 0 ≤ i ∧ i < 100) ∧
    (100 ≤ i →
      submitVoteCheck pollId i = .invalidOption ∧
      postVoteCheck pollId i = .invalidOption) := by
  have hcond :
      ¬(pollId = "" ∨
        (!validateLength (.str pollId) POLL_ID_MIN POLL_ID_MAX) = true) := by
    simp [hid, hlen]
  have hv : isValidOptionIndex i 100 = true ↔ 0 ≤ i ∧ i < 100 := by
    simp [isValidOptionIndex]
  refine ⟨?_, ?_, ?_⟩
  · unfold submitVoteCheck
    rw [if_neg hcond]
    by_cases hvi : isValidOptionIndex i 100 = true
    · rw [if_neg (by simp [hvi])]
      exact ⟨fun _ => hv.mp hvi, fun _ => rfl⟩
    · rw [if_pos (by simp [Bool.not_eq_true] at hvi ⊢; exact hvi)]
      exact ⟨fun hF => absurd hF (by simp), fun hb => absurd (hv.mpr hb) hvi⟩
  · unfold postVoteCheck
    rw [if_neg hcond]
    by_cases hvi : isValidOptionIndex i 100 = true
    · rw [if_neg (by simp [hvi])]
      exact ⟨fun _ => hv.mp hvi, fun _ => rfl⟩
    · rw [if_pos (by simp [Bool.not_eq_true] at hvi ⊢; exact hvi)]
      exact ⟨fun hF => absurd hF (by simp), fun hb => absurd (hv.mpr hb) hvi⟩
  · intro hge
    have hvi : (!isValidOptionIndex i 100) = true := by
      simp [isValidOptionIndex]
      omega
    constructor
    · unfold submitVoteCheck
      rw [if_neg hcond, if_pos hvi]
    · unfold postVoteCheck
      rw [if_neg hcond, if_pos hvi]

/-- **C10 witness.** For poll id `"abc"`: index 42 passes the check of the
`submitVote` action even though no poll with 42 options is consulted, and
index 100 is rejected. -/
theorem optionIndex_fixed_bound_witness :
    submitVoteCheck "abc" 42 = .proceed "abc" 42 ∧
    submitVoteCheck "abc" 100 = .invalidOption :=
  ⟨((optionIndex_fixed_bound "abc" 42 (by decide) (by decide)).1).mpr
      (by decide),
    ((optionIndex_fixed_bound "abc" 100 (by decide) (by decide)).2.2
      (by decide)).1⟩

end AlxPolly
